import Mathlib

/-!
# Evans REPL: command dispatch, validation and execution

A shallow embedding of `repl/repl.go`, `repl/service.go` and `repl/show.go`.

* Go strings are Lean `String`s (sequences of Unicode scalar values).
* A Go `error` result is an `Option Error`; `none` is the nil error.
* The collaborator `env.Env` is a table of methods over an abstract state `σ`;
  every call made through it is recorded in a call log.
* A Go run-time panic (index out of range) is the result `none` of a command method.
-/

set_option autoImplicit false

namespace Evans

/-! ## Errors (`github.com/pkg/errors`) -/

/-- Error values: `errors.New`, `errors.Wrap` of a non-nil error, and errors made by the
collaborator outside this package. -/
inductive Error where
  | New (message : String)
  | Wrap (err : Error) (message : String)
  | collaborator (message : String)
  deriving DecidableEq, Repr

/-- The `Error()` string of an error: a wrapped error prints its message, a colon and a
blank, and then the error it wraps. -/
def Error.message : Error → String
  | .New m => m
  | .Wrap e m => m ++ ": " ++ e.message
  | .collaborator m => m

/-- The `errors.Cause` of an error: the innermost error of a chain of wraps. -/
def Error.Cause : Error → Error
  | .New m => .New m
  | .Wrap e _ => e.Cause
  | .collaborator m => .collaborator m

def ErrUnknownCommand : Error := Error.New "unknown command"

def ErrArgumentRequired : Error := Error.New "argument required"

def ErrUnknownTarget : Error := Error.New "unknown target"

/-! ## Strings (`strings`) -/

/-- The blank, U+0020. -/
def space : Char := Char.ofNat 32

/-- The line feed, U+000A. -/
def newline : Char := Char.ofNat 10

/-- Cut a sequence of characters at every occurrence of `sep`. -/
def splitChars (sep : Char) : List Char → List (List Char)
  | [] => [[]]
  | c :: cs =>
    if c = sep then [] :: splitChars sep cs
    else
      match splitChars sep cs with
      | [] => [[c]]
      | p :: ps => (c :: p) :: ps

/-- The function `strings.Split(s, sep)` for a separator of one character: the pieces of
`s` between consecutive separators, one more piece than there are separators. -/
def Split (s : String) (sep : Char) : List String :=
  (splitChars sep s.data).map String.mk

/-- The function `unicode.ToLower` on one rune: `A`-`Z` are shifted to `a`-`z`, other ASCII
runes are unchanged, and a rune outside ASCII is mapped by the Unicode case tables, which
are the argument `unicodeLower`. -/
def lowerRune (unicodeLower : Char → Char) (c : Char) : Char :=
  if c.toNat < 128 then
    if 65 ≤ c.toNat ∧ c.toNat ≤ 90 then Char.ofNat (c.toNat + 32) else c
  else unicodeLower c

/-- The function `strings.ToLower`: every rune mapped to lower case. -/
def ToLower (unicodeLower : Char → Char) (s : String) : String :=
  String.mk (s.data.map (lowerRune unicodeLower))

/-- The function `strings.TrimRight(s, cutset)` for a cutset of one character. -/
def TrimRight (s : String) (c : Char) : String :=
  String.mk (s.data.reverse.dropWhile (fun x => x = c)).reverse

/-- The verb `%-Ns` of `fmt.Sprintf`: the string, padded with blanks on the right to a width
of `n` runes. -/
def padRight (n : Nat) (s : String) : String :=
  s ++ String.mk (List.replicate (n - s.length) space)

/-- The function `strings.Join(elems, sep)`: the elements with `sep` between consecutive
ones. -/
def Join : List String → String → String
  | [], _ => ""
  | [a], _ => a
  | a :: b :: rest, sep => a ++ sep ++ Join (b :: rest) sep

/-! ## The collaborator (`env.Env`) -/

/-- Modelled from the spec: the collaborator's result type `Listing`, which lives in the
package `env`; all that is used of it is its deterministic string rendering. -/
structure Listing where
  rendering : String
  deriving DecidableEq, Repr

/-- Modelled from the spec: the collaborator contract of the package `env`, as a table of
methods over the collaborator's state `σ`. Every method may change that state. -/
structure Env (σ : Type) where
  UseService : String → σ → Option Error × σ
  GetPackages : σ → Listing × σ
  GetServices : σ → Except Error Listing × σ
  GetMessages : σ → Except Error Listing × σ
  GetRPCs : σ → Except Error Listing × σ
  GetDSN : σ → String × σ

/-- A call made on the collaborator. -/
inductive Call where
  | UseService (name : String)
  | GetPackages
  | GetServices
  | GetMessages
  | GetRPCs
  | GetDSN
  deriving DecidableEq, Repr

/-- The collaborator's state together with the log of the calls made on it, oldest
first. -/
structure EnvState (σ : Type) where
  state : σ
  calls : List Call
  deriving DecidableEq, Repr

variable {σ : Type}

/-- The call `env.UseService(name)`, logged. -/
def Env.useService (e : Env σ) (name : String) (s : EnvState σ) : Option Error × EnvState σ :=
  ((e.UseService name s.state).1,
    ⟨(e.UseService name s.state).2, s.calls ++ [Call.UseService name]⟩)

/-- The call `env.GetPackages()`, logged. -/
def Env.getPackages (e : Env σ) (s : EnvState σ) : Listing × EnvState σ :=
  ((e.GetPackages s.state).1, ⟨(e.GetPackages s.state).2, s.calls ++ [Call.GetPackages]⟩)

/-- The call `env.GetServices()`, logged. -/
def Env.getServices (e : Env σ) (s : EnvState σ) : Except Error Listing × EnvState σ :=
  ((e.GetServices s.state).1, ⟨(e.GetServices s.state).2, s.calls ++ [Call.GetServices]⟩)

/-- The call `env.GetMessages()`, logged. -/
def Env.getMessages (e : Env σ) (s : EnvState σ) : Except Error Listing × EnvState σ :=
  ((e.GetMessages s.state).1, ⟨(e.GetMessages s.state).2, s.calls ++ [Call.GetMessages]⟩)

/-- The call `env.GetRPCs()`, logged. -/
def Env.getRPCs (e : Env σ) (s : EnvState σ) : Except Error Listing × EnvState σ :=
  ((e.GetRPCs s.state).1, ⟨(e.GetRPCs s.state).2, s.calls ++ [Call.GetRPCs]⟩)

/-- The call `env.GetDSN()`, logged. -/
def Env.getDSN (e : Env σ) (s : EnvState σ) : String × EnvState σ :=
  ((e.GetDSN s.state).1, ⟨(e.GetDSN s.state).2, s.calls ++ [Call.GetDSN]⟩)

/-! ## Commands -/

/-- The result of a command's `Run`: output text and error. -/
abbrev RunResult := String × Option Error

/-- Modelled from the spec: the interface `Commander`, whose declaration is in a file of the
package that is not at hand. `Synopsis` and `Help` have no side effects; `Validate` and
`Run` may call the collaborator, and `none` is a run-time panic. -/
structure Commander (σ : Type) where
  Synopsis : String
  Help : String
  Validate : List String → EnvState σ → Option (Option Error × EnvState σ)
  Run : List String → EnvState σ → Option (RunResult × EnvState σ)

namespace serviceCommand

def Synopsis : String := "set the service as the current selected service"

def Help : String := "usage: service <service name>"

def Validate (args : List String) : Option Error :=
  if args.length < 1 then some (Error.Wrap ErrArgumentRequired "service name") else none

/-- The method `serviceCommand.Run`; `args[0]` on an empty list is out of range. -/
def Run (env : Env σ) (args : List String) (s : EnvState σ) :
    Option (RunResult × EnvState σ) :=
  match args with
  | [] => none
  | a :: _ =>
    match env.useService a s with
    | (some err, s') => some (("", some err), s')
    | (none, s') => some (("", none), s')

/-- The value `&serviceCommand{env}` as a `Commander`. -/
def commander (env : Env σ) : Commander σ where
  Synopsis := Synopsis
  Help := Help
  Validate := fun args s => some (Validate args, s)
  Run := Run env

end serviceCommand

namespace showCommand

def Synopsis : String := "show package, service or RPC names"

def Help : String := "usage: show <package | service | message | rpc>"

def Validate (args : List String) : Option Error :=
  if args.length < 1 then
    some (Error.Wrap ErrArgumentRequired "target type (package, service, message)")
  else none

/-- The method `showCommand.Run`; `args[0]` on an empty list is out of range. -/
def Run (unicodeLower : Char → Char) (env : Env σ) (args : List String) (s : EnvState σ) :
    Option (RunResult × EnvState σ) :=
  match args with
  | [] => none
  | target :: _ =>
    let t := ToLower unicodeLower target
    if t = "p" ∨ t = "package" ∨ t = "packages" then
      some (((env.getPackages s).1.rendering, none), (env.getPackages s).2)
    else if t = "s" ∨ t = "svc" ∨ t = "service" ∨ t = "services" then
      match env.getServices s with
      | (Except.error err, s') => some (("", some err), s')
      | (Except.ok svc, s') => some ((svc.rendering, none), s')
    else if t = "m" ∨ t = "msg" ∨ t = "message" ∨ t = "messages" then
      match env.getMessages s with
      | (Except.error err, s') => some (("", some err), s')
      | (Except.ok msg, s') => some ((msg.rendering, none), s')
    else if t = "a" ∨ t = "r" ∨ t = "rpc" ∨ t = "api" then
      match env.getRPCs s with
      | (Except.error err, s') => some (("", some err), s')
      | (Except.ok rpcs, s') => some ((rpcs.rendering, none), s')
    else
      some (("", some (Error.Wrap ErrUnknownTarget target)), s)

/-- The value `&showCommand{env}` as a `Commander`. -/
def commander (unicodeLower : Char → Char) (env : Env σ) : Commander σ where
  Synopsis := Synopsis
  Help := Help
  Validate := fun args s => some (Validate args, s)
  Run := Run unicodeLower env

end showCommand

/-! ## The REPL -/

/-- An invocation of a command method made by `REPL.eval`, under the name the command is
registered under. -/
inductive Invocation where
  | Validate (name : String) (args : List String)
  | Run (name : String) (args : List String)
  deriving DecidableEq, Repr

/-- Everything `REPL.eval` can act on: the collaborator (with its call log), the log of the
command methods `eval` has invoked, and the texts written to `ui.Writer`, oldest first. -/
structure World (σ : Type) where
  env : EnvState σ
  invoked : List Invocation
  written : List String
  deriving DecidableEq, Repr

/-- The struct `REPL`: the server's host and port of the configuration, the collaborator and
the registry of commands. The registry is a Go map; it is a list of entries with distinct
names here, and ranging over the map visits the entries in the order of the list. -/
structure REPL (σ : Type) where
  host : String
  port : String
  env : Env σ
  cmds : List (String × Commander σ)

/-- The map lookup `cmds[name]`. -/
def REPL.find (name : String) : List (String × Commander σ) → Option (Commander σ)
  | [] => none
  | entry :: rest => if name = entry.1 then some entry.2 else REPL.find name rest

/-- The constructor `NewREPL`: the registry holds the five commands. The commands `call`,
`desc` and `package` are defined in files that are not at hand and are arguments here, and
so are the Unicode case tables that `show` lower-cases its target with. -/
def NewREPL (host port : String) (unicodeLower : Char → Char) (env : Env σ)
    (callCommand descCommand packageCommand : Commander σ) : REPL σ where
  host := host
  port := port
  env := env
  cmds :=
    [("call", callCommand),
     ("desc", descCommand),
     ("package", packageCommand),
     ("service", serviceCommand.commander env),
     ("show", showCommand.commander unicodeLower env)]

/-- The method `REPL.wrappedPrint`: the text and a line feed written to `ui.Writer`. -/
def REPL.wrappedPrint (text : String) (w : World σ) : World σ :=
  { w with written := w.written ++ [text ++ "\n"] }

/-- The first loop of `REPL.showHelp`: the slice `text`, made with one empty entry per
command and then appended to, and the greatest length in bytes of a name. -/
def REPL.showHelpTable (cmds : List (String × Commander σ)) : List (List String) × Nat :=
  cmds.foldl
    (fun acc entry =>
      (acc.1 ++ [[entry.1, entry.2.Synopsis]],
        if entry.1.utf8ByteSize > acc.2 then entry.1.utf8ByteSize else acc.2))
    (List.replicate cmds.length [], 0)

/-- The second loop of `REPL.showHelp`: one line per command, the name padded to `maxLen`
and the synopsis. -/
def REPL.showHelpRows (maxLen : Nat) (cmds : List (String × Commander σ)) : String :=
  cmds.foldl
    (fun cmdText entry =>
      cmdText ++ ("  " ++ padRight maxLen entry.1 ++ "    " ++ entry.2.Synopsis ++ "\n"))
    ""

/-- The method `REPL.showHelp`: the help table written to `ui.Writer`. -/
def REPL.showHelp (cmds : List (String × Commander σ)) (w : World σ) : World σ :=
  let maxLen := (REPL.showHelpTable cmds).2
  let cmdText := REPL.showHelpRows maxLen cmds
  let msg := "\nAvailable commands:\n" ++ cmdText ++
    "\n\nShow more details:\n  <command> --help\n"
  REPL.wrappedPrint (TrimRight msg newline) w

/-- The end of `REPL.eval`, once the command and its arguments are known: `Validate`, and
`Run` when `Validate` returns no error. -/
def REPL.validateRun (name : String) (cmd : Commander σ) (args : List String) (w : World σ) :
    Option (RunResult × World σ) :=
  match cmd.Validate args w.env with
  | none => none
  | some (some err, s) =>
    some (("", some err), ⟨s, w.invoked ++ [Invocation.Validate name args], w.written⟩)
  | some (none, s) =>
    match cmd.Run args s with
    | none => none
    | some (res, s') =>
      some (res,
        ⟨s', w.invoked ++ [Invocation.Validate name args, Invocation.Run name args],
          w.written⟩)

/-- The method `REPL.eval` on the line `l`: the result `(text, error)` and the world after
it, or `none` when a command method panics. The arguments `args` are `part[1:]`, which is
the empty list when the line has one token only. -/
def REPL.eval (r : REPL σ) (l : String) (w : World σ) : Option (RunResult × World σ) :=
  match Split l space with
  | [] => none
  | name :: args =>
    if name = "help" then
      some (("", none), REPL.showHelp r.cmds w)
    else
      match REPL.find name r.cmds with
      | none => some (("", some ErrUnknownCommand), w)
      | some cmd =>
        if args.head? = some "-h" ∨ args.head? = some "--help" then
          some ((cmd.Help, none), w)
        else
          REPL.validateRun name cmd args w

/-- The method `REPL.getPrompt`: host, colon, port and the prompt sign, after the data
source and an at sign when the collaborator has a data source. -/
def REPL.getPrompt (r : REPL σ) (s : EnvState σ) : String × EnvState σ :=
  let p := r.host ++ ":" ++ r.port ++ "> "
  let dsn := r.env.getDSN s
  (if dsn.1 ≠ "" then dsn.1 ++ "@" ++ p else p, dsn.2)

/-- One line of the help table, as `fmt.Sprintf` makes it in the second loop of
`REPL.showHelp`: two blanks, the name padded to `maxLen`, four blanks, the synopsis and a
line feed. -/
def helpRow (maxLen : Nat) (entry : String × Commander σ) : String :=
  "  " ++ padRight maxLen entry.1 ++ "    " ++ entry.2.Synopsis ++ "\n"

/-! ## The splash text -/

/-- The function `strings.HasPrefix`. -/
def HasPrefix (s pre : String) : Bool :=
  pre.data.isPrefixOf s.data

/-- The function `strings.TrimPrefix`. -/
def TrimPrefix (s pre : String) : String :=
  if HasPrefix s pre then String.mk (s.data.drop pre.data.length) else s

/-- The error of `os.Stat`, as far as `os.IsNotExist` tells errors apart. -/
inductive StatError where
  | notExist
  | other
  deriving DecidableEq, Repr

/-- The function `os.IsNotExist` on the error result of `os.Stat`; `none` is the nil
error. -/
def IsNotExist (err : Option StatError) : Bool :=
  err = some StatError.notExist

/-- The answers of the operating system and of the path libraries to the calls that
`REPL.printSplash` makes: `homedir.Dir()` (`none` when it fails), `filepath.Join` of two
elements, `filepath.Abs` (the empty path when it fails), the error of `os.Stat`, and
`ioutil.ReadFile`. -/
structure FileSystem where
  Dir : Option String
  Join : String → String → String
  Abs : String → String
  Stat : String → Option StatError
  ReadFile : String → Except Error String

/-- The path `abs` that `REPL.printSplash` computes for a non-empty path `p`. -/
def REPL.splashPath (fs : FileSystem) (p : String) : String :=
  if HasPrefix p "~/" then
    match fs.Dir with
    | some home => fs.Join home (TrimPrefix p "~/")
    | none => ""
  else fs.Abs p

/-- The method `REPL.printSplash`: the contents of the file and a line feed are written to
`ui.Writer` when the path is not empty, resolves to a non-empty path, `os.Stat` does not
report that the file is missing and the file can be read. -/
def REPL.printSplash (fs : FileSystem) (p : String) (w : World σ) : World σ :=
  if p ≠ "" then
    if REPL.splashPath fs p ≠ "" then
      if IsNotExist (fs.Stat (REPL.splashPath fs p)) = false then
        match fs.ReadFile (REPL.splashPath fs p) with
        | Except.ok b => { w with written := w.written ++ [b ++ "\n"] }
        | Except.error _ => w
      else w
    else w
  else w

/-! ## A concrete collaborator, for evaluation -/

/-- A collaborator that knows the services `Greeter` and `Echo`; its state is the selected
service. Listing the messages fails. -/
def demoEnv : Env (Option String) where
  UseService := fun name st =>
    if name = "Greeter" ∨ name = "Echo" then (none, some name)
    else (some (Error.collaborator "invalid service name"), st)
  GetPackages := fun st => (⟨"demo"⟩, st)
  GetServices := fun st => (Except.ok ⟨"Greeter Echo"⟩, st)
  GetMessages := fun st => (Except.error (Error.collaborator "no package selected"), st)
  GetRPCs := fun st => (Except.ok ⟨"SayHello"⟩, st)
  GetDSN := fun st => (st.getD "", st)

/-- A command that accepts at most one argument and echoes it. -/
def demoCommand : Commander (Option String) where
  Synopsis := "demo"
  Help := "usage: demo"
  Validate := fun args s =>
    some (if args.length ≤ 1 then none else some (Error.collaborator "too many arguments"), s)
  Run := fun args s => some ((args.headD "", none), s)

/-- The REPL of `localhost:50051` over the concrete collaborator. -/
def demoREPL : REPL (Option String) :=
  NewREPL "localhost" "50051" id demoEnv demoCommand demoCommand demoCommand

/-- The world before any call: nothing selected, nothing logged, nothing written. -/
def demoWorld : World (Option String) := ⟨⟨none, []⟩, [], []⟩

/-- A file system with the home directory `/home/op` and two files: `/home/op/splash.txt`,
which can be read, and `/etc/secret`, which cannot. Relative paths are relative to
`/home/op`. -/
def demoFS : FileSystem where
  Dir := some "/home/op"
  Join := fun a b => a ++ "/" ++ b
  Abs := fun p => if HasPrefix p "/" then p else "/home/op/" ++ p
  Stat := fun p =>
    if p = "/home/op/splash.txt" ∨ p = "/etc/secret" then none else some StatError.notExist
  ReadFile := fun p =>
    if p = "/home/op/splash.txt" then Except.ok "Welcome!"
    else Except.error (Error.collaborator "cannot read")

/-- The line that consists of the command name `n` followed by the space-joined `args`. -/
def commandLine (n : String) (args : List String) : String :=
  Join (n :: args) " "

/-- The number of `Run` invocations in a log of invocations. -/
def runCount : List Invocation → Nat
  | [] => 0
  | Invocation.Run _ _ :: rest => runCount rest + 1
  | Invocation.Validate _ _ :: rest => runCount rest

/-! ## Tokenization lemmas -/

theorem splitChars_ne_nil (sep : Char) (cs : List Char) : splitChars sep cs ≠ [] := by
  cases cs with
  | nil => simp [splitChars]
  | cons c cs =>
    unfold splitChars
    split
    · simp
    · split <;> simp

theorem splitChars_of_not_mem (sep : Char) (cs : List Char) (h : sep ∉ cs) :
    splitChars sep cs = [cs] := by
  induction cs with
  | nil => rfl
  | cons c cs ih =>
    have hc : c ≠ sep := fun e => h (by simp [e])
    have hcs : sep ∉ cs := fun e => h (by simp [e])
    unfold splitChars
    rw [if_neg hc, ih hcs]

theorem splitChars_append_sep (sep : Char) (a b : List Char) (h : sep ∉ a) :
    splitChars sep (a ++ sep :: b) = a :: splitChars sep b := by
  induction a with
  | nil => simp [splitChars]
  | cons c cs ih =>
    have hc : c ≠ sep := fun e => h (by simp [e])
    have hcs : sep ∉ cs := fun e => h (by simp [e])
    rw [List.cons_append, splitChars, if_neg hc, ih hcs]

theorem Split_ne_nil (s : String) (sep : Char) : Split s sep ≠ [] := by
  simp [Split, splitChars_ne_nil]

theorem Split_append_space (a b : String) (h : space ∉ a.data) :
    Split (a ++ " " ++ b) space = a :: Split b space := by
  have e : (a ++ " " ++ b).data = a.data ++ space :: b.data := by
    simp [String.data_append]
    rfl
  simp [Split, e, splitChars_append_sep space _ _ h]

theorem Split_of_not_mem (a : String) (h : space ∉ a.data) : Split a space = [a] := by
  simp [Split, splitChars_of_not_mem space _ h]

theorem Split_Join (tokens : List String) (hne : tokens ≠ [])
    (h : ∀ t ∈ tokens, space ∉ t.data) : Split (Join tokens " ") space = tokens := by
  induction tokens with
  | nil => exact absurd rfl hne
  | cons a rest ih =>
    cases rest with
    | nil => exact Split_of_not_mem a (h a (by simp))
    | cons b rest =>
      have ha : space ∉ a.data := h a (by simp)
      have hr : ∀ t ∈ b :: rest, space ∉ t.data := fun t ht => h t (by simp [ht])
      rw [Join, Split_append_space a _ ha, ih (by simp) hr]

theorem Split_commandLine (n : String) (args : List String) (hn : space ∉ n.data)
    (h : ∀ t ∈ args, space ∉ t.data) : Split (commandLine n args) space = n :: args := by
  apply Split_Join
  · simp
  · intro t ht
    rcases List.mem_cons.mp ht with e | e
    · exact e ▸ hn
    · exact h t e

/-! ## Dispatch lemmas -/

/-- A name that the registry of `NewREPL` resolves is one of the five command names. -/
theorem find_NewREPL_name (host port : String) (unicodeLower : Char → Char) (env : Env σ)
    (callCommand descCommand packageCommand cmd : Commander σ) (n : String)
    (h : REPL.find n
      (NewREPL host port unicodeLower env callCommand descCommand packageCommand).cmds =
        some cmd) :
    n = "call" ∨ n = "desc" ∨ n = "package" ∨ n = "service" ∨ n = "show" := by
  by_contra hn
  simp only [not_or] at hn
  obtain ⟨h1, h2, h3, h4, h5⟩ := hn
  simp [NewREPL, REPL.find, h1, h2, h3, h4, h5] at h

/-- A line whose first token is a command of the registry and whose second token is not a
help flag goes through `Validate` and `Run` with the tokens after the name. -/
theorem eval_of_tokens (r : REPL σ) (l n : String) (args : List String) (cmd : Commander σ)
    (w : World σ) (hs : Split l space = n :: args) (hn : n ≠ "help")
    (hfind : REPL.find n r.cmds = some cmd)
    (hflag : args.head? ≠ some "-h" ∧ args.head? ≠ some "--help") :
    r.eval l w = REPL.validateRun n cmd args w := by
  simp only [REPL.eval, hs, if_neg hn, hfind]
  rw [if_neg (by simp [hflag.1, hflag.2])]

theorem validateRun_of_valid (n : String) (cmd : Commander σ) (args : List String)
    (w : World σ) (s : EnvState σ) (hval : cmd.Validate args w.env = some (none, s)) :
    REPL.validateRun n cmd args w =
      (cmd.Run args s).map (fun x =>
        (x.1, ⟨x.2, w.invoked ++ [Invocation.Validate n args, Invocation.Run n args],
          w.written⟩)) := by
  simp only [REPL.validateRun, hval]
  cases cmd.Run args s <;> rfl

/-- What `serviceCommand.Run` does on a list with a first element. -/
theorem serviceCommand.Run_cons (env : Env σ) (a : String) (rest : List String)
    (s : EnvState σ) :
    serviceCommand.Run env (a :: rest) s =
      some (("", (env.UseService a s.state).1),
        ⟨(env.UseService a s.state).2, s.calls ++ [Call.UseService a]⟩) := by
  simp only [serviceCommand.Run, Env.useService]
  cases (env.UseService a s.state).1 <;> rfl

/-- What `showCommand.Run` does on a target that is a keyword for the RPCs. -/
theorem showCommand.Run_rpc (unicodeLower : Char → Char) (env : Env σ) (t : String)
    (rest : List String) (s : EnvState σ)
    (h : ToLower unicodeLower t = "a" ∨ ToLower unicodeLower t = "r" ∨
      ToLower unicodeLower t = "rpc" ∨ ToLower unicodeLower t = "api") :
    showCommand.Run unicodeLower env (t :: rest) s =
      some
        (match (env.GetRPCs s.state).1 with
          | Except.error err => ("", some err)
          | Except.ok rpcs => (rpcs.rendering, none),
        ⟨(env.GetRPCs s.state).2, s.calls ++ [Call.GetRPCs]⟩) := by
  have h1 : ¬ (ToLower unicodeLower t = "p" ∨ ToLower unicodeLower t = "package" ∨
      ToLower unicodeLower t = "packages") := by
    rcases h with e | e | e | e <;> rw [e] <;> decide
  have h2 : ¬ (ToLower unicodeLower t = "s" ∨ ToLower unicodeLower t = "svc" ∨
      ToLower unicodeLower t = "service" ∨ ToLower unicodeLower t = "services") := by
    rcases h with e | e | e | e <;> rw [e] <;> decide
  have h3 : ¬ (ToLower unicodeLower t = "m" ∨ ToLower unicodeLower t = "msg" ∨
      ToLower unicodeLower t = "message" ∨ ToLower unicodeLower t = "messages") := by
    rcases h with e | e | e | e <;> rw [e] <;> decide
  simp only [showCommand.Run, if_neg h1, if_neg h2, if_neg h3, if_pos h, Env.getRPCs]
  cases (env.GetRPCs s.state).1 <;> rfl

theorem runCount_append (a b : List Invocation) :
    runCount (a ++ b) = runCount a + runCount b := by
  induction a with
  | nil => simp [runCount]
  | cons x xs ih =>
    cases x with
    | Validate name args => simp [runCount, ih]
    | Run name args =>
      rw [List.cons_append, runCount, runCount, ih]
      omega

/-- The line of `service` with a first argument that is not a help flag: one call of
`UseService` with that argument. -/
theorem eval_service (host port : String) (unicodeLower : Char → Char) (env : Env σ)
    (callCommand descCommand packageCommand : Commander σ) (l a : String)
    (rest : List String) (w : World σ) (hs : Split l space = "service" :: a :: rest)
    (h1 : a ≠ "-h") (h2 : a ≠ "--help") :
    (NewREPL host port unicodeLower env callCommand descCommand packageCommand).eval l w =
      some (("", (env.UseService a w.env.state).1),
        ⟨⟨(env.UseService a w.env.state).2, w.env.calls ++ [Call.UseService a]⟩,
          w.invoked ++
            [Invocation.Validate "service" (a :: rest), Invocation.Run "service" (a :: rest)],
          w.written⟩) := by
  rw [eval_of_tokens
    (NewREPL host port unicodeLower env callCommand descCommand packageCommand)
    l "service" (a :: rest) (serviceCommand.commander env) w hs
    (by decide) rfl (by simp [h1, h2])]
  rw [validateRun_of_valid "service" _ (a :: rest) w w.env rfl]
  show Option.map _ (serviceCommand.Run env (a :: rest) w.env) = _
  rw [serviceCommand.Run_cons]
  rfl

/-- The keywords of `show` are in lower case already. -/
theorem ToLower_keyword (unicodeLower : Char → Char) (k : String)
    (h : k ∈ ["p", "package", "packages", "s", "svc", "service", "services",
      "m", "msg", "message", "messages", "a", "r", "rpc", "api"]) :
    ToLower unicodeLower k = k := by
  simp only [List.mem_cons, List.mem_singleton, List.not_mem_nil, or_false] at h
  rcases h with e | e | e | e | e | e | e | e | e | e | e | e | e | e | e <;> rw [e] <;> rfl

/-- On a target that lower-cases to a keyword, `showCommand.Run` depends on the lower-cased
target only, and not on the arguments after it. -/
theorem showCommand.Run_congr (unicodeLower : Char → Char) (env : Env σ) (t t' : String)
    (rest rest' : List String) (s : EnvState σ)
    (h : ToLower unicodeLower t ∈ ["p", "package", "packages", "s", "svc", "service",
      "services", "m", "msg", "message", "messages", "a", "r", "rpc", "api"])
    (ht : ToLower unicodeLower t' = ToLower unicodeLower t) :
    showCommand.Run unicodeLower env (t' :: rest') s =
      showCommand.Run unicodeLower env (t :: rest) s := by
  simp only [showCommand.Run, ht]
  by_cases h1 : ToLower unicodeLower t = "p" ∨ ToLower unicodeLower t = "package" ∨
      ToLower unicodeLower t = "packages"
  · rw [if_pos h1, if_pos h1]
  by_cases h2 : ToLower unicodeLower t = "s" ∨ ToLower unicodeLower t = "svc" ∨
      ToLower unicodeLower t = "service" ∨ ToLower unicodeLower t = "services"
  · rw [if_neg h1, if_neg h1, if_pos h2, if_pos h2]
  by_cases h3 : ToLower unicodeLower t = "m" ∨ ToLower unicodeLower t = "msg" ∨
      ToLower unicodeLower t = "message" ∨ ToLower unicodeLower t = "messages"
  · rw [if_neg h1, if_neg h1, if_neg h2, if_neg h2, if_pos h3, if_pos h3]
  by_cases h4 : ToLower unicodeLower t = "a" ∨ ToLower unicodeLower t = "r" ∨
      ToLower unicodeLower t = "rpc" ∨ ToLower unicodeLower t = "api"
  · rw [if_neg h1, if_neg h1, if_neg h2, if_neg h2, if_neg h3, if_neg h3, if_pos h4,
      if_pos h4]
  · exfalso
    simp only [List.mem_cons, List.mem_singleton, List.not_mem_nil, or_false] at h
    simp only [not_or] at h1 h2 h3 h4
    obtain ⟨p1, p2, p3⟩ := h1
    obtain ⟨s1, s2, s3, s4⟩ := h2
    obtain ⟨m1, m2, m3, m4⟩ := h3
    obtain ⟨a1, a2, a3, a4⟩ := h4
    rcases h with e | e | e | e | e | e | e | e | e | e | e | e | e | e | e <;> contradiction

/-- What `showCommand.Run` does on a target that is a keyword for the packages. -/
theorem showCommand.Run_package (unicodeLower : Char → Char) (env : Env σ) (t : String)
    (rest : List String) (s : EnvState σ)
    (h : ToLower unicodeLower t = "p" ∨ ToLower unicodeLower t = "package" ∨
      ToLower unicodeLower t = "packages") :
    showCommand.Run unicodeLower env (t :: rest) s =
      some (((env.GetPackages s.state).1.rendering, none),
        ⟨(env.GetPackages s.state).2, s.calls ++ [Call.GetPackages]⟩) := by
  simp only [showCommand.Run, if_pos h, Env.getPackages]

/-- What `showCommand.Run` does on a target that is a keyword for the services. -/
theorem showCommand.Run_service (unicodeLower : Char → Char) (env : Env σ) (t : String)
    (rest : List String) (s : EnvState σ)
    (h : ToLower unicodeLower t = "s" ∨ ToLower unicodeLower t = "svc" ∨
      ToLower unicodeLower t = "service" ∨ ToLower unicodeLower t = "services") :
    showCommand.Run unicodeLower env (t :: rest) s =
      some
        (match (env.GetServices s.state).1 with
          | Except.error err => ("", some err)
          | Except.ok svc => (svc.rendering, none),
        ⟨(env.GetServices s.state).2, s.calls ++ [Call.GetServices]⟩) := by
  have h1 : ¬ (ToLower unicodeLower t = "p" ∨ ToLower unicodeLower t = "package" ∨
      ToLower unicodeLower t = "packages") := by
    rcases h with e | e | e | e <;> rw [e] <;> decide
  simp only [showCommand.Run, if_neg h1, if_pos h, Env.getServices]
  cases (env.GetServices s.state).1 <;> rfl

/-- What `showCommand.Run` does on a target that is a keyword for the messages. -/
theorem showCommand.Run_message (unicodeLower : Char → Char) (env : Env σ) (t : String)
    (rest : List String) (s : EnvState σ)
    (h : ToLower unicodeLower t = "m" ∨ ToLower unicodeLower t = "msg" ∨
      ToLower unicodeLower t = "message" ∨ ToLower unicodeLower t = "messages") :
    showCommand.Run unicodeLower env (t :: rest) s =
      some
        (match (env.GetMessages s.state).1 with
          | Except.error err => ("", some err)
          | Except.ok msg => (msg.rendering, none),
        ⟨(env.GetMessages s.state).2, s.calls ++ [Call.GetMessages]⟩) := by
  have h1 : ¬ (ToLower unicodeLower t = "p" ∨ ToLower unicodeLower t = "package" ∨
      ToLower unicodeLower t = "packages") := by
    rcases h with e | e | e | e <;> rw [e] <;> decide
  have h2 : ¬ (ToLower unicodeLower t = "s" ∨ ToLower unicodeLower t = "svc" ∨
      ToLower unicodeLower t = "service" ∨ ToLower unicodeLower t = "services") := by
    rcases h with e | e | e | e <;> rw [e] <;> decide
  simp only [showCommand.Run, if_neg h1, if_neg h2, if_pos h, Env.getMessages]
  cases (env.GetMessages s.state).1 <;> rfl

/-! ## Help table lemmas -/

theorem showHelpTable_snd_fold (cmds : List (String × Commander σ))
    (acc : List (List String) × Nat) :
    (cmds.foldl
      (fun acc entry =>
        (acc.1 ++ [[entry.1, entry.2.Synopsis]],
          if entry.1.utf8ByteSize > acc.2 then entry.1.utf8ByteSize else acc.2))
      acc).2 =
    cmds.foldl
      (fun m entry => if entry.1.utf8ByteSize > m then entry.1.utf8ByteSize else m) acc.2 := by
  induction cmds generalizing acc with
  | nil => rfl
  | cons e rest ih => simp only [List.foldl_cons, ih]

theorem showHelpTable_fst_fold (cmds : List (String × Commander σ))
    (acc : List (List String) × Nat) :
    (cmds.foldl
      (fun acc entry =>
        (acc.1 ++ [[entry.1, entry.2.Synopsis]],
          if entry.1.utf8ByteSize > acc.2 then entry.1.utf8ByteSize else acc.2))
      acc).1 =
    acc.1 ++ cmds.map (fun entry => [entry.1, entry.2.Synopsis]) := by
  induction cmds generalizing acc with
  | nil => simp
  | cons e rest ih => simp only [List.foldl_cons, ih, List.map_cons, List.append_assoc,
      List.singleton_append]

/-- The greatest length found by the first loop is `N` when no name is longer than `N` and
some name has the length `N`, in whatever order the names are visited. -/
theorem maxLen_fold_eq (N : Nat) (cmds : List (String × Commander σ)) (m : Nat)
    (hle : ∀ e ∈ cmds, e.1.utf8ByteSize ≤ N) (hm : m ≤ N)
    (hex : m = N ∨ ∃ e ∈ cmds, e.1.utf8ByteSize = N) :
    cmds.foldl
      (fun m entry => if entry.1.utf8ByteSize > m then entry.1.utf8ByteSize else m) m = N := by
  induction cmds generalizing m with
  | nil =>
    rcases hex with e | ⟨e, he, _⟩
    · exact e
    · simp at he
  | cons e rest ih =>
    rw [List.foldl_cons]
    have he : e.1.utf8ByteSize ≤ N := hle e (by simp)
    apply ih
    · intro x hx
      exact hle x (by simp [hx])
    · split <;> omega
    · rcases hex with h | ⟨x, hx, hxN⟩
      · left
        split <;> omega
      · rcases List.mem_cons.mp hx with h | h
        · left
          subst h
          split <;> omega
        · exact Or.inr ⟨x, h, hxN⟩

theorem showHelpRows_eq_join (maxLen : Nat) (cmds : List (String × Commander σ)) :
    REPL.showHelpRows maxLen cmds = String.join (cmds.map (helpRow maxLen)) := by
  simp only [REPL.showHelpRows, String.join, List.foldl_map, helpRow]

theorem TrimRight_help_text (x : String) :
    TrimRight (x ++ "\n\nShow more details:\n  <command> --help\n") newline =
      x ++ "\n\nShow more details:\n  <command> --help" := by
  apply String.ext
  simp [TrimRight, newline, List.dropWhile]

/-- The names of a registry that is a rearrangement of the registry of `NewREPL`. -/
theorem perm_NewREPL_name (host port : String) (unicodeLower : Char → Char) (env : Env σ)
    (callCommand descCommand packageCommand : Commander σ)
    (cmds : List (String × Commander σ))
    (hperm : cmds.Perm
      (NewREPL host port unicodeLower env callCommand descCommand packageCommand).cmds)
    (e : String × Commander σ) (he : e ∈ cmds) :
    e.1 = "call" ∨ e.1 = "desc" ∨ e.1 = "package" ∨ e.1 = "service" ∨ e.1 = "show" := by
  have h := hperm.mem_iff.mp he
  simp only [NewREPL, List.mem_cons, List.mem_singleton, List.not_mem_nil, or_false] at h
  rcases h with h | h | h | h | h <;> simp [h]

/-- The first loop finds the greatest length 7, the length of `package` and of `service`,
in whatever order the registry of `NewREPL` is visited. -/
theorem showHelpTable_maxLen (host port : String) (unicodeLower : Char → Char) (env : Env σ)
    (callCommand descCommand packageCommand : Commander σ)
    (cmds : List (String × Commander σ))
    (hperm : cmds.Perm
      (NewREPL host port unicodeLower env callCommand descCommand packageCommand).cmds) :
    (REPL.showHelpTable cmds).2 = 7 := by
  rw [REPL.showHelpTable, showHelpTable_snd_fold]
  apply maxLen_fold_eq
  · intro e he
    rcases perm_NewREPL_name host port unicodeLower env callCommand descCommand
      packageCommand cmds hperm e he with h | h | h | h | h <;> rw [h] <;> decide
  · omega
  · right
    refine ⟨("package", packageCommand), hperm.mem_iff.mpr (by simp [NewREPL]), ?_⟩
    show ("package" : String).utf8ByteSize = 7
    decide

/-! ## Further lemmas on tokens and on `Run` -/

/-- The first piece of a sequence begins with every leading stretch that is free of the
separator. -/
theorem splitChars_append_head (sep : Char) (a b : List Char) (h : sep ∉ a) :
    ∃ p ps, splitChars sep (a ++ b) = (a ++ p) :: ps := by
  induction a with
  | nil =>
    cases hb : splitChars sep b with
    | nil => exact absurd hb (splitChars_ne_nil sep b)
    | cons p ps => exact ⟨p, ps, by simp [hb]⟩
  | cons c cs ih =>
    have hc : c ≠ sep := fun e => h (by simp [e])
    have hcs : sep ∉ cs := fun e => h (by simp [e])
    obtain ⟨p, ps, hp⟩ := ih hcs
    exact ⟨p, ps, by rw [List.cons_append, splitChars, if_neg hc, hp]; rfl⟩

theorem mk_append_ne (a p : List Char) (k : String) (hk : k.data.take a.length ≠ a) :
    String.mk (a ++ p) ≠ k := by
  intro e
  apply hk
  rw [← e]
  simp

/-- On a list with a first element `showCommand.Run` returns; it does not panic. -/
theorem showCommand.Run_cons_isSome (unicodeLower : Char → Char) (env : Env σ) (a : String)
    (rest : List String) (s : EnvState σ) :
    ∃ x, showCommand.Run unicodeLower env (a :: rest) s = some x := by
  simp only [showCommand.Run]
  split
  · exact ⟨_, rfl⟩
  split
  · simp only [Env.getServices]
    cases (env.GetServices s.state).1 <;> exact ⟨_, rfl⟩
  split
  · simp only [Env.getMessages]
    cases (env.GetMessages s.state).1 <;> exact ⟨_, rfl⟩
  split
  · simp only [Env.getRPCs]
    cases (env.GetRPCs s.state).1 <;> exact ⟨_, rfl⟩
  · exact ⟨_, rfl⟩

/-! ## The claims -/

/-- Claim C1: a line whose first space-separated token is neither `help` nor one of the
registered command names makes `REPL.eval` return the empty text and `ErrUnknownCommand`;
the world is left as it was, so no `Validate` or `Run` is invoked and no call is made on
the collaborator. -/
theorem eval_unknown_command (host port : String) (unicodeLower : Char → Char) (env : Env σ)
    (callCommand descCommand packageCommand : Commander σ) (l : String) (w : World σ)
    (h : ∀ n ∈ ["help", "call", "desc", "package", "service", "show"],
      (Split l space).head? ≠ some n) :
    (NewREPL host port unicodeLower env callCommand descCommand packageCommand).eval l w =
      some (("", some ErrUnknownCommand), w) := by
  cases hs : Split l space with
  | nil => exact absurd hs (Split_ne_nil l space)
  | cons name rest =>
    have hn : ∀ n ∈ ["help", "call", "desc", "package", "service", "show"], name ≠ n := by
      intro n hmem e
      exact h n hmem (by simp [hs, e])
    have h0 := hn "help" (by simp)
    have h1 := hn "call" (by simp)
    have h2 := hn "desc" (by simp)
    have h3 := hn "package" (by simp)
    have h4 := hn "service" (by simp)
    have h5 := hn "show" (by simp)
    simp [REPL.eval, hs, NewREPL, REPL.find, h0, h1, h2, h3, h4, h5]

theorem eval_unknown_command_witness :
    (∀ n ∈ ["help", "call", "desc", "package", "service", "show"],
      (Split "unknownthing" space).head? ≠ some n) ∧
    demoREPL.eval "unknownthing" demoWorld = some (("", some ErrUnknownCommand), demoWorld) :=
  ⟨by decide,
    eval_unknown_command "localhost" "50051" id demoEnv demoCommand demoCommand demoCommand
      "unknownthing" demoWorld (by decide)⟩

/-- Claim C2, as the code has it: the empty line and the line of three blanks are not
accepted as a no-op. Their first token is the empty string, which is looked up like any other
name and is not registered, so `REPL.eval` returns the empty text and `ErrUnknownCommand`;
the world is left as it was. -/
theorem eval_blank_line (host port : String) (unicodeLower : Char → Char) (env : Env σ)
    (callCommand descCommand packageCommand : Commander σ) (w : World σ) :
    (NewREPL host port unicodeLower env callCommand descCommand packageCommand).eval "" w =
      some (("", some ErrUnknownCommand), w) ∧
    (NewREPL host port unicodeLower env callCommand descCommand packageCommand).eval "   " w =
      some (("", some ErrUnknownCommand), w) :=
  ⟨rfl, rfl⟩

/-- Claim C2 fails as stated: on the empty line and on the line of three blanks `REPL.eval`
returns a non-nil error, `ErrUnknownCommand`, and not success. -/
theorem eval_blank_line_not_success :
    (demoREPL.eval "" demoWorld).map Prod.fst = some ("", some ErrUnknownCommand) ∧
    (demoREPL.eval "" demoWorld).map Prod.fst ≠ some ("", none) ∧
    (demoREPL.eval "   " demoWorld).map Prod.fst = some ("", some ErrUnknownCommand) ∧
    (demoREPL.eval "   " demoWorld).map Prod.fst ≠ some ("", none) := by
  decide

/-- Claim C3: when the first token of the line is a registered command name and the token
right after it is `-h` or `--help`, `REPL.eval` returns the `Help` text of the command
registered under that name and a nil error, and leaves the world as it was: no `Validate`, no
`Run`, no call on the collaborator. So `service -h` returns the usage text of `service`
whatever the collaborator is, and `UseService` is not called. -/
theorem eval_help_flag (host port : String) (unicodeLower : Char → Char) (env : Env σ)
    (callCommand descCommand packageCommand cmd : Commander σ) (l n flag : String)
    (more : List String) (w : World σ)
    (hfind : REPL.find n
      (NewREPL host port unicodeLower env callCommand descCommand packageCommand).cmds =
        some cmd)
    (htokens : Split l space = n :: flag :: more)
    (hflag : flag = "-h" ∨ flag = "--help") :
    (NewREPL host port unicodeLower env callCommand descCommand packageCommand).eval l w =
      some ((cmd.Help, none), w) ∧
    (NewREPL host port unicodeLower env callCommand descCommand packageCommand).eval
      "service -h" w = some (("usage: service <service name>", none), w) := by
  refine ⟨?_, rfl⟩
  have hn : n ≠ "help" := by
    rcases find_NewREPL_name host port unicodeLower env callCommand descCommand
      packageCommand cmd n hfind with e | e | e | e | e <;> rw [e] <;> decide
  simp only [REPL.eval, htokens, if_neg hn, hfind, List.head?_cons]
  rw [if_pos (by rcases hflag with e | e <;> simp [e])]

theorem eval_help_flag_witness :
    demoREPL.eval "service -h" demoWorld =
      some ((serviceCommand.Help, none), demoWorld) ∧
    demoREPL.eval "service -h" demoWorld =
      some (("usage: service <service name>", none), demoWorld) :=
  eval_help_flag "localhost" "50051" id demoEnv demoCommand demoCommand demoCommand
    (serviceCommand.commander demoEnv) "service -h" "service" "-h" [] demoWorld
    rfl (by decide) (by decide)

/-- Claim C4: `Validate` of `service` and of `show` on the empty argument list fails with an
error whose cause is `ErrArgumentRequired` and whose message is the field name followed by
`: argument required`. So the lines `service` and `show` make `REPL.eval` return that error
with the empty text; only `Validate` is invoked, `Run` is not, and the collaborator is left
as it was, without a call on it. -/
theorem eval_argument_required (host port : String) (unicodeLower : Char → Char)
    (env : Env σ) (callCommand descCommand packageCommand : Commander σ) (w : World σ) :
    serviceCommand.Validate [] = some (Error.Wrap ErrArgumentRequired "service name") ∧
    (Error.Wrap ErrArgumentRequired "service name").Cause = ErrArgumentRequired ∧
    (Error.Wrap ErrArgumentRequired "service name").message =
      "service name" ++ ": argument required" ∧
    showCommand.Validate [] =
      some (Error.Wrap ErrArgumentRequired "target type (package, service, message)") ∧
    (Error.Wrap ErrArgumentRequired "target type (package, service, message)").Cause =
      ErrArgumentRequired ∧
    (Error.Wrap ErrArgumentRequired "target type (package, service, message)").message =
      "target type (package, service, message)" ++ ": argument required" ∧
    (NewREPL host port unicodeLower env callCommand descCommand packageCommand).eval
      "service" w =
      some (("", some (Error.Wrap ErrArgumentRequired "service name")),
        ⟨w.env, w.invoked ++ [Invocation.Validate "service" []], w.written⟩) ∧
    (NewREPL host port unicodeLower env callCommand descCommand packageCommand).eval
      "show" w =
      some (("", some (Error.Wrap ErrArgumentRequired
          "target type (package, service, message)")),
        ⟨w.env, w.invoked ++ [Invocation.Validate "show" []], w.written⟩) :=
  ⟨rfl, rfl, by decide, rfl, rfl, by decide, rfl, rfl⟩

/-- Claim C5: when the lower-cased target is none of the keywords of `show`,
`showCommand.Run` returns the empty text and `ErrUnknownTarget` wrapped with the target as it
was typed: the cause of the error is `ErrUnknownTarget` and its message is the target
followed by `: unknown target`. The collaborator is left as it was, without a call on it. So
the line `show bogus` makes `REPL.eval` return the error that wraps `bogus`. -/
theorem show_unknown_target (host port : String) (unicodeLower : Char → Char) (env : Env σ)
    (callCommand descCommand packageCommand : Commander σ) (t : String) (rest : List String)
    (s : EnvState σ) (w : World σ)
    (h : ToLower unicodeLower t ∉
      ["p", "package", "packages", "s", "svc", "service", "services",
        "m", "msg", "message", "messages", "a", "r", "rpc", "api"]) :
    showCommand.Run unicodeLower env (t :: rest) s =
      some (("", some (Error.Wrap ErrUnknownTarget t)), s) ∧
    (Error.Wrap ErrUnknownTarget t).Cause = ErrUnknownTarget ∧
    (Error.Wrap ErrUnknownTarget t).message = t ++ ": unknown target" ∧
    (NewREPL host port unicodeLower env callCommand descCommand packageCommand).eval
      "show bogus" w =
      some (("", some (Error.Wrap ErrUnknownTarget "bogus")),
        ⟨w.env,
          w.invoked ++ [Invocation.Validate "show" ["bogus"], Invocation.Run "show" ["bogus"]],
          w.written⟩) := by
  have hmsg : (Error.Wrap ErrUnknownTarget t).message = t ++ ": unknown target" := by
    show t ++ ": " ++ "unknown target" = t ++ ": unknown target"
    rw [String.append_assoc]
    rfl
  refine ⟨?_, rfl, hmsg, rfl⟩
  simp only [List.mem_cons, List.mem_singleton, List.not_mem_nil, or_false, not_or] at h
  obtain ⟨p1, p2, p3, s1, s2, s3, s4, m1, m2, m3, m4, a1, a2, a3, a4⟩ := h
  simp [showCommand.Run, p1, p2, p3, s1, s2, s3, s4, m1, m2, m3, m4, a1, a2, a3, a4]

theorem show_unknown_target_witness :
    showCommand.Run id demoEnv ["bogus"] demoWorld.env =
      some (("", some (Error.Wrap ErrUnknownTarget "bogus")), demoWorld.env) ∧
    (Error.Wrap ErrUnknownTarget "bogus").Cause = ErrUnknownTarget ∧
    (Error.Wrap ErrUnknownTarget "bogus").message = "bogus" ++ ": unknown target" ∧
    demoREPL.eval "show bogus" demoWorld =
      some (("", some (Error.Wrap ErrUnknownTarget "bogus")),
        ⟨demoWorld.env,
          demoWorld.invoked ++
            [Invocation.Validate "show" ["bogus"], Invocation.Run "show" ["bogus"]],
          demoWorld.written⟩) :=
  show_unknown_target "localhost" "50051" id demoEnv demoCommand demoCommand demoCommand
    "bogus" [] demoWorld.env demoWorld (by decide)

/-- Claim C6: for every collaborator and every world, the lines `show rpc`, `show r`,
`show api` and `show a` give one and the same result and one and the same effect on the
collaborator: exactly one call, `GetRPCs`, is added to the call log, the state is the one
that call leaves, and the result is the rendering of the listing with a nil error, or the
empty text with the error of `GetRPCs`. -/
theorem show_rpc_aliases (host port : String) (unicodeLower : Char → Char) (env : Env σ)
    (callCommand descCommand packageCommand : Commander σ) (w : World σ) :
    ∀ l ∈ ["show rpc", "show r", "show api", "show a"],
      ((NewREPL host port unicodeLower env callCommand descCommand packageCommand).eval
        l w).map (fun x => (x.1, x.2.env)) =
      some
        (match (env.GetRPCs w.env.state).1 with
          | Except.error err => ("", some err)
          | Except.ok rpcs => (rpcs.rendering, none),
        ⟨(env.GetRPCs w.env.state).2, w.env.calls ++ [Call.GetRPCs]⟩) := by
  have key : ∀ (l t : String), Split l space = ["show", t] → t ≠ "-h" → t ≠ "--help" →
      (ToLower unicodeLower t = "a" ∨ ToLower unicodeLower t = "r" ∨
        ToLower unicodeLower t = "rpc" ∨ ToLower unicodeLower t = "api") →
      ((NewREPL host port unicodeLower env callCommand descCommand packageCommand).eval
        l w).map (fun x => (x.1, x.2.env)) =
      some
        (match (env.GetRPCs w.env.state).1 with
          | Except.error err => ("", some err)
          | Except.ok rpcs => (rpcs.rendering, none),
        ⟨(env.GetRPCs w.env.state).2, w.env.calls ++ [Call.GetRPCs]⟩) := by
    intro l t hs h1 h2 hk
    rw [eval_of_tokens
      (NewREPL host port unicodeLower env callCommand descCommand packageCommand)
      l "show" [t] (showCommand.commander unicodeLower env) w hs
      (by decide) rfl (by simp [h1, h2])]
    rw [validateRun_of_valid "show" _ [t] w w.env rfl]
    show Option.map _ (Option.map _ (showCommand.Run unicodeLower env [t] w.env)) = _
    rw [showCommand.Run_rpc unicodeLower env t [] w.env hk]
    rfl
  intro l hl
  simp only [List.mem_cons, List.mem_singleton, List.not_mem_nil, or_false] at hl
  rcases hl with e | e | e | e <;> subst e
  · exact key "show rpc" "rpc" rfl (by decide) (by decide) (Or.inr (Or.inr (Or.inl rfl)))
  · exact key "show r" "r" rfl (by decide) (by decide) (Or.inr (Or.inl rfl))
  · exact key "show api" "api" rfl (by decide) (by decide) (Or.inr (Or.inr (Or.inr rfl)))
  · exact key "show a" "a" rfl (by decide) (by decide) (Or.inl rfl)

theorem show_rpc_aliases_witness :
    (demoREPL.eval "show api" demoWorld).map (fun x => (x.1, x.2.env)) =
      some
        (match (demoEnv.GetRPCs demoWorld.env.state).1 with
          | Except.error err => ("", some err)
          | Except.ok rpcs => (rpcs.rendering, none),
        ⟨(demoEnv.GetRPCs demoWorld.env.state).2, demoWorld.env.calls ++ [Call.GetRPCs]⟩) :=
  show_rpc_aliases "localhost" "50051" id demoEnv demoCommand demoCommand demoCommand
    demoWorld "show api" (by decide)

/-- Claim C7, as the code has it: for a registered command name `n` and arguments `args` that
are free of blanks, that do not begin with `-h` or `--help`, and that `Validate` accepts,
`REPL.eval` on the line `n` followed by the space-joined `args` invokes `Validate` once and
then `Run` exactly once, on `args`: its result is the result of that one `Run`, and the
number of `Run` invocations grows by one. -/
theorem eval_runs_once (host port : String) (unicodeLower : Char → Char) (env : Env σ)
    (callCommand descCommand packageCommand cmd : Commander σ) (n : String)
    (args : List String) (w : World σ) (s : EnvState σ)
    (hfind : REPL.find n
      (NewREPL host port unicodeLower env callCommand descCommand packageCommand).cmds =
        some cmd)
    (hargs : ∀ a ∈ args, space ∉ a.data)
    (hflag : args.head? ≠ some "-h" ∧ args.head? ≠ some "--help")
    (hval : cmd.Validate args w.env = some (none, s)) :
    (NewREPL host port unicodeLower env callCommand descCommand packageCommand).eval
      (commandLine n args) w =
      (cmd.Run args s).map (fun x =>
        (x.1, ⟨x.2, w.invoked ++ [Invocation.Validate n args, Invocation.Run n args],
          w.written⟩)) ∧
    ((NewREPL host port unicodeLower env callCommand descCommand packageCommand).eval
      (commandLine n args) w).map (fun x => runCount x.2.invoked) =
      (cmd.Run args s).map (fun _ => runCount w.invoked + 1) := by
  have hname := find_NewREPL_name host port unicodeLower env callCommand descCommand
    packageCommand cmd n hfind
  have hn : n ≠ "help" := by
    rcases hname with e | e | e | e | e <;> rw [e] <;> decide
  have hsp : space ∉ n.data := by
    rcases hname with e | e | e | e | e <;> rw [e] <;> decide
  have hs := Split_commandLine n args hsp hargs
  have key := (eval_of_tokens _ (commandLine n args) n args cmd w hs hn hfind hflag).trans
    (validateRun_of_valid n cmd args w s hval)
  refine ⟨key, ?_⟩
  rw [key]
  cases cmd.Run args s with
  | none => rfl
  | some x => simp [runCount_append, runCount]

theorem eval_runs_once_witness :
    demoREPL.eval (commandLine "service" ["Greeter"]) demoWorld =
      (serviceCommand.Run demoEnv ["Greeter"] demoWorld.env).map (fun x =>
        (x.1, ⟨x.2, demoWorld.invoked ++
          [Invocation.Validate "service" ["Greeter"], Invocation.Run "service" ["Greeter"]],
          demoWorld.written⟩)) ∧
    (demoREPL.eval (commandLine "service" ["Greeter"]) demoWorld).map
        (fun x => runCount x.2.invoked) =
      (serviceCommand.Run demoEnv ["Greeter"] demoWorld.env).map
        (fun _ => runCount demoWorld.invoked + 1) :=
  eval_runs_once "localhost" "50051" id demoEnv demoCommand demoCommand demoCommand
    (serviceCommand.commander demoEnv) "service" ["Greeter"] demoWorld demoWorld.env
    rfl (by decide) (by decide) rfl

/-- Claim C7 fails as stated: the argument list `-h` satisfies the `Validate` of `service`,
and yet on the line `service -h` no `Run` is invoked, the `Help` text is returned. And for a
command that accepts one argument at most, the argument `a b` is accepted while the line
`call a b` has two arguments, which `Validate` rejects, so that no `Run` is invoked
either. -/
theorem eval_runs_once_fails :
    (serviceCommand.commander demoEnv).Validate ["-h"] demoWorld.env =
      some (none, demoWorld.env) ∧
    commandLine "service" ["-h"] = "service -h" ∧
    demoREPL.eval (commandLine "service" ["-h"]) demoWorld =
      some ((serviceCommand.Help, none), demoWorld) ∧
    (demoREPL.eval (commandLine "service" ["-h"]) demoWorld).map
      (fun x => runCount x.2.invoked) = some 0 ∧
    demoCommand.Validate ["a b"] demoWorld.env = some (none, demoWorld.env) ∧
    (demoREPL.eval (commandLine "call" ["a b"]) demoWorld).map
      (fun x => runCount x.2.invoked) = some 0 := by
  decide

/-- Claim C8: the prompt is host, colon, port and `> ` when the data source of the
collaborator is empty, and the data source, `@`, host, colon, port and `> ` otherwise; one
call, `GetDSN`, is made on the collaborator. With `localhost` and `50051` the prompt is
`localhost:50051> ` without a data source and `mydb@localhost:50051> ` with `mydb`. -/
theorem getPrompt_spec (r : REPL σ) (s : EnvState σ) :
    r.getPrompt s =
      (if (r.env.GetDSN s.state).1 = "" then r.host ++ ":" ++ r.port ++ "> "
        else (r.env.GetDSN s.state).1 ++ "@" ++ r.host ++ ":" ++ r.port ++ "> ",
      ⟨(r.env.GetDSN s.state).2, s.calls ++ [Call.GetDSN]⟩) ∧
    (demoREPL.getPrompt ⟨none, []⟩).1 = "localhost:50051> " ∧
    (demoREPL.getPrompt ⟨some "mydb", []⟩).1 = "mydb@localhost:50051> " := by
  refine ⟨?_, by decide, by decide⟩
  simp only [REPL.getPrompt, Env.getDSN]
  by_cases h : (r.env.GetDSN s.state).1 = ""
  · simp [h]
  · simp [h, String.append_assoc]

/-- Claim C9, as the code has it: `REPL.eval` cuts its line at every single blank. Tokens
that are free of blanks, joined by single blanks, come back as exactly those tokens, so
`service foo` calls `UseService` with `foo`. A blank in front of the line, at its end or
after another blank is not skipped: it yields an empty token. So `service  foo` and
`service ` call `UseService` with the empty name, and ` service foo ` has the empty string
as its command name, which is unknown. -/
theorem eval_splits_at_every_space (host port : String) (unicodeLower : Char → Char)
    (env : Env σ) (callCommand descCommand packageCommand : Commander σ) (w : World σ)
    (tokens : List String) (hne : tokens ≠ []) (h : ∀ t ∈ tokens, space ∉ t.data) :
    Split (Join tokens " ") space = tokens ∧
    (∀ b : String, Split (" " ++ b) space = "" :: Split b space) ∧
    (∀ a : String, space ∉ a.data → Split (a ++ " ") space = [a, ""]) ∧
    (∀ a b : String, space ∉ a.data →
      Split (a ++ " " ++ (" " ++ b)) space = a :: "" :: Split b space) ∧
    (NewREPL host port unicodeLower env callCommand descCommand packageCommand).eval
      "service foo" w =
      some (("", (env.UseService "foo" w.env.state).1),
        ⟨⟨(env.UseService "foo" w.env.state).2, w.env.calls ++ [Call.UseService "foo"]⟩,
          w.invoked ++
            [Invocation.Validate "service" ["foo"], Invocation.Run "service" ["foo"]],
          w.written⟩) ∧
    (NewREPL host port unicodeLower env callCommand descCommand packageCommand).eval
      "service  foo" w =
      some (("", (env.UseService "" w.env.state).1),
        ⟨⟨(env.UseService "" w.env.state).2, w.env.calls ++ [Call.UseService ""]⟩,
          w.invoked ++
            [Invocation.Validate "service" ["", "foo"], Invocation.Run "service" ["", "foo"]],
          w.written⟩) ∧
    (NewREPL host port unicodeLower env callCommand descCommand packageCommand).eval
      "service " w =
      some (("", (env.UseService "" w.env.state).1),
        ⟨⟨(env.UseService "" w.env.state).2, w.env.calls ++ [Call.UseService ""]⟩,
          w.invoked ++ [Invocation.Validate "service" [""], Invocation.Run "service" [""]],
          w.written⟩) ∧
    (NewREPL host port unicodeLower env callCommand descCommand packageCommand).eval
      " service foo " w = some (("", some ErrUnknownCommand), w) := by
  have lead : ∀ b : String, Split (" " ++ b) space = "" :: Split b space := by
    intro b
    have e : (" " ++ b).data = space :: b.data := by
      simp [String.data_append]
      rfl
    simp [Split, e, splitChars]
    rfl
  have trail : ∀ a : String, space ∉ a.data → Split (a ++ " ") space = [a, ""] := by
    intro a ha
    have e : a ++ " " = a ++ " " ++ "" := by simp
    rw [e, Split_append_space a "" ha]
    rfl
  refine ⟨Split_Join tokens hne h, lead, trail, ?_, ?_, ?_, ?_, rfl⟩
  · intro a b ha
    rw [Split_append_space a _ ha, lead]
  · exact eval_service host port unicodeLower env callCommand descCommand packageCommand
      "service foo" "foo" [] w rfl (by decide) (by decide)
  · exact eval_service host port unicodeLower env callCommand descCommand packageCommand
      "service  foo" "" ["foo"] w rfl (by decide) (by decide)
  · exact eval_service host port unicodeLower env callCommand descCommand packageCommand
      "service " "" [] w rfl (by decide) (by decide)

theorem eval_splits_at_every_space_witness :
    Split (Join ["service", "", "Greeter"] " ") space = ["service", "", "Greeter"] ∧
    (demoREPL.eval "service  foo" demoWorld).map (fun x => x.2.env.calls) =
      some [Call.UseService ""] :=
  ⟨(eval_splits_at_every_space "localhost" "50051" id demoEnv demoCommand demoCommand
      demoCommand demoWorld ["service", "", "Greeter"] (by decide) (by decide)).1,
    by decide⟩

/-- Claim C9 fails as stated: `service  Greeter`, with two blanks, does not behave as
`service Greeter` does, it calls `UseService` with the empty name; ` service Greeter `, with
outer blanks, is an unknown command; and `service `, with a blank at its end, does not yield
`ErrArgumentRequired`, it calls `UseService` with the empty name. -/
theorem eval_spaces_not_collapsed :
    Split "service  Greeter" space = ["service", "", "Greeter"] ∧
    demoREPL.eval "service  Greeter" demoWorld ≠ demoREPL.eval "service Greeter" demoWorld ∧
    (demoREPL.eval "service Greeter" demoWorld).map (fun x => x.2.env.calls) =
      some [Call.UseService "Greeter"] ∧
    (demoREPL.eval "service  Greeter" demoWorld).map (fun x => x.2.env.calls) =
      some [Call.UseService ""] ∧
    demoREPL.eval " service Greeter " demoWorld =
      some (("", some ErrUnknownCommand), demoWorld) ∧
    (demoREPL.eval "service " demoWorld).map (fun x => (x.1, x.2.env.calls)) =
      some (("", some (Error.collaborator "invalid service name")), [Call.UseService ""]) ∧
    (demoREPL.eval "service" demoWorld).map (fun x => (x.1, x.2.env.calls)) =
      some (("", some (Error.Wrap ErrArgumentRequired "service name")), []) := by
  decide

/-- Claim C10: `serviceCommand.Run` on a list with a first element makes exactly one call on
the collaborator, `UseService` with that element, and returns the empty text together with
what `UseService` returned: a nil error on success, the error `e` as it is on failure. The
state after `Run` is the state `UseService` left, the command changes nothing itself; with a
collaborator that rejects a name without a change, the selected service stays as it was. -/
theorem service_run (env : Env σ) (a : String) (rest : List String) (s : EnvState σ) :
    serviceCommand.Run env (a :: rest) s =
      some (("", (env.UseService a s.state).1),
        ⟨(env.UseService a s.state).2, s.calls ++ [Call.UseService a]⟩) ∧
    serviceCommand.Run demoEnv ["Greeter"] ⟨some "Echo", []⟩ =
      some (("", none), ⟨some "Greeter", [Call.UseService "Greeter"]⟩) ∧
    serviceCommand.Run demoEnv ["Nope"] ⟨some "Echo", []⟩ =
      some (("", some (Error.collaborator "invalid service name")),
        ⟨some "Echo", [Call.UseService "Nope"]⟩) :=
  ⟨serviceCommand.Run_cons env a rest s, by decide, by decide⟩

/-- Claim C11: on a target that lower-cases to a keyword, `showCommand.Run` makes exactly one
call on the collaborator, the listing call of that keyword, and returns the rendering of the
listing with a nil error: `GetPackages` for `p`, `package`, `packages`; `GetServices` for
`s`, `svc`, `service`, `services`; `GetMessages` for `m`, `msg`, `message`, `messages`;
`GetRPCs` for `a`, `r`, `rpc`, `api`. When `GetServices`, `GetMessages` or `GetRPCs` fails
with an error, `Run` returns the empty text and that very error. -/
theorem show_run_listing (unicodeLower : Char → Char) (env : Env σ) (t : String)
    (rest : List String) (s : EnvState σ) :
    (ToLower unicodeLower t ∈ ["p", "package", "packages"] →
      showCommand.Run unicodeLower env (t :: rest) s =
        some (((env.GetPackages s.state).1.rendering, none),
          ⟨(env.GetPackages s.state).2, s.calls ++ [Call.GetPackages]⟩)) ∧
    (ToLower unicodeLower t ∈ ["s", "svc", "service", "services"] →
      showCommand.Run unicodeLower env (t :: rest) s =
        some
          (match (env.GetServices s.state).1 with
            | Except.error err => ("", some err)
            | Except.ok svc => (svc.rendering, none),
          ⟨(env.GetServices s.state).2, s.calls ++ [Call.GetServices]⟩)) ∧
    (ToLower unicodeLower t ∈ ["m", "msg", "message", "messages"] →
      showCommand.Run unicodeLower env (t :: rest) s =
        some
          (match (env.GetMessages s.state).1 with
            | Except.error err => ("", some err)
            | Except.ok msg => (msg.rendering, none),
          ⟨(env.GetMessages s.state).2, s.calls ++ [Call.GetMessages]⟩)) ∧
    (ToLower unicodeLower t ∈ ["a", "r", "rpc", "api"] →
      showCommand.Run unicodeLower env (t :: rest) s =
        some
          (match (env.GetRPCs s.state).1 with
            | Except.error err => ("", some err)
            | Except.ok rpcs => (rpcs.rendering, none),
          ⟨(env.GetRPCs s.state).2, s.calls ++ [Call.GetRPCs]⟩)) := by
  refine ⟨fun h => ?_, fun h => ?_, fun h => ?_, fun h => ?_⟩
  · exact showCommand.Run_package unicodeLower env t rest s (by simpa using h)
  · exact showCommand.Run_service unicodeLower env t rest s (by simpa using h)
  · exact showCommand.Run_message unicodeLower env t rest s (by simpa using h)
  · exact showCommand.Run_rpc unicodeLower env t rest s (by simpa using h)

theorem show_run_listing_witness :
    showCommand.Run id demoEnv ["package"] demoWorld.env =
      some (("demo", none), ⟨none, [Call.GetPackages]⟩) ∧
    showCommand.Run id demoEnv ["s"] demoWorld.env =
      some (("Greeter Echo", none), ⟨none, [Call.GetServices]⟩) ∧
    showCommand.Run id demoEnv ["message"] demoWorld.env =
      some (("", some (Error.collaborator "no package selected")),
        ⟨none, [Call.GetMessages]⟩) ∧
    showCommand.Run id demoEnv ["rpc"] demoWorld.env =
      some (("SayHello", none), ⟨none, [Call.GetRPCs]⟩) :=
  ⟨(show_run_listing id demoEnv "package" [] demoWorld.env).1 (by decide),
    (show_run_listing id demoEnv "s" [] demoWorld.env).2.1 (by decide),
    (show_run_listing id demoEnv "message" [] demoWorld.env).2.2.1 (by decide),
    (show_run_listing id demoEnv "rpc" [] demoWorld.env).2.2.2 (by decide)⟩

/-- Claim C12, as the code has it: `serviceCommand.Validate` accepts an argument list if and
only if the list is not empty. It rejects the empty list, and it accepts every list with one
argument or more; arguments after the first are not counted. -/
theorem service_validate_iff (args : List String) :
    (serviceCommand.Validate args = none ↔ args ≠ []) ∧
    serviceCommand.Validate [] = some (Error.Wrap ErrArgumentRequired "service name") := by
  refine ⟨?_, rfl⟩
  cases args with
  | nil => simp [serviceCommand.Validate]
  | cons a rest => simp [serviceCommand.Validate]

/-- Claim C12 fails as stated: a list of two arguments is accepted by
`serviceCommand.Validate`, and so is a list of three. -/
theorem service_validate_accepts_two :
    serviceCommand.Validate ["Greeter", "Echo"] = none ∧
    serviceCommand.Validate ["a", "b", "c"] = none := by
  decide

/-- Claim C13: the target of `show` is matched without regard to case. When the lower-cased
target is a keyword, `showCommand.Run` on the target makes the same call on the collaborator
and returns the same result as on the lower-cased target. -/
theorem show_case_insensitive (unicodeLower : Char → Char) (env : Env σ) (t : String)
    (s : EnvState σ)
    (h : ToLower unicodeLower t ∈ ["p", "package", "packages", "s", "svc", "service",
      "services", "m", "msg", "message", "messages", "a", "r", "rpc", "api"]) :
    showCommand.Run unicodeLower env [t] s =
      showCommand.Run unicodeLower env [ToLower unicodeLower t] s := by
  have hk := ToLower_keyword unicodeLower (ToLower unicodeLower t) h
  exact (showCommand.Run_congr unicodeLower env t (ToLower unicodeLower t) [] [] s h hk).symm

theorem show_case_insensitive_witness :
    (showCommand.Run id demoEnv ["RPC"] demoWorld.env =
      showCommand.Run id demoEnv [ToLower id "RPC"] demoWorld.env ∧
     ToLower id "RPC" = "rpc") ∧
    (showCommand.Run id demoEnv ["Package"] demoWorld.env =
      showCommand.Run id demoEnv [ToLower id "Package"] demoWorld.env ∧
     ToLower id "Package" = "package") ∧
    (showCommand.Run id demoEnv ["S"] demoWorld.env =
      showCommand.Run id demoEnv [ToLower id "S"] demoWorld.env ∧
     ToLower id "S" = "s") :=
  ⟨⟨show_case_insensitive id demoEnv "RPC" demoWorld.env (by decide), by decide⟩,
    ⟨show_case_insensitive id demoEnv "Package" demoWorld.env (by decide), by decide⟩,
    ⟨show_case_insensitive id demoEnv "S" demoWorld.env (by decide), by decide⟩⟩

/-- Claim C19: `service` and `show` look at their first argument only. For every first
argument and every list of further arguments, `Validate` accepts the list, and `Run` makes
the same call on the collaborator and returns the same result as on the first argument
alone. -/
theorem extra_arguments_ignored (unicodeLower : Char → Char) (env : Env σ) (a : String)
    (rest : List String) (s : EnvState σ) :
    serviceCommand.Validate (a :: rest) = none ∧
    showCommand.Validate (a :: rest) = none ∧
    serviceCommand.Run env (a :: rest) s = serviceCommand.Run env [a] s ∧
    showCommand.Run unicodeLower env (a :: rest) s = showCommand.Run unicodeLower env [a] s ∧
    serviceCommand.Run env (a :: rest) s =
      some (("", (env.UseService a s.state).1),
        ⟨(env.UseService a s.state).2, s.calls ++ [Call.UseService a]⟩) := by
  refine ⟨?_, ?_, rfl, rfl, serviceCommand.Run_cons env a rest s⟩
  · simp [serviceCommand.Validate]
  · simp [showCommand.Validate]

/-- Claim C14: a line whose first token is `help` is answered before the registry is looked
up. `REPL.eval` returns the empty text and a nil error, invokes no `Validate` and no `Run`,
makes no call on the collaborator, and writes one text: the help table between its heading
and its footer. In whatever order the registry is visited, the table has exactly one row per
registered command and nothing else; a row is two blanks, the name padded with blanks to 7
characters, the length of the longest name, four blanks and the synopsis of the command, so
every synopsis starts at the same column. The slice `text` of the first loop does begin with
one empty entry per command, but it is not what is written. -/
theorem eval_help (host port : String) (unicodeLower : Char → Char) (env : Env σ)
    (callCommand descCommand packageCommand : Commander σ) (r : REPL σ) (l : String)
    (w : World σ)
    (hperm : r.cmds.Perm
      (NewREPL host port unicodeLower env callCommand descCommand packageCommand).cmds)
    (h : (Split l space).head? = some "help") :
    r.eval l w =
      some (("", none),
        ⟨w.env, w.invoked,
          w.written ++
            ["\nAvailable commands:\n" ++ String.join (r.cmds.map (helpRow 7)) ++
              "\n\nShow more details:\n  <command> --help" ++ "\n"]⟩) ∧
    (r.cmds.map (helpRow 7)).Perm
      [helpRow 7 ("call", callCommand), helpRow 7 ("desc", descCommand),
        helpRow 7 ("package", packageCommand),
        helpRow 7 ("service", serviceCommand.commander env),
        helpRow 7 ("show", showCommand.commander unicodeLower env)] ∧
    (∀ e ∈ r.cmds, (padRight 7 e.1).length = 7 ∧
      helpRow 7 e = "  " ++ padRight 7 e.1 ++ "    " ++ e.2.Synopsis ++ "\n") ∧
    (REPL.showHelpTable r.cmds).1 =
      List.replicate r.cmds.length [] ++
        r.cmds.map (fun entry => [entry.1, entry.2.Synopsis]) ∧
    (NewREPL host port unicodeLower env callCommand descCommand packageCommand).eval
      "help" w =
      some (("", none),
        ⟨w.env, w.invoked,
          w.written ++
            ["\nAvailable commands:\n  call       " ++ callCommand.Synopsis ++
              "\n  desc       " ++ descCommand.Synopsis ++
              "\n  package    " ++ packageCommand.Synopsis ++
              "\n  service    set the service as the current selected service" ++
              "\n  show       show package, service or RPC names" ++
              "\n\n\nShow more details:\n  <command> --help\n"]⟩) := by
  have table : ∀ (cmds : List (String × Commander σ)) (v : World σ),
      cmds.Perm
        (NewREPL host port unicodeLower env callCommand descCommand packageCommand).cmds →
      REPL.showHelp cmds v =
        ⟨v.env, v.invoked,
          v.written ++
            ["\nAvailable commands:\n" ++ String.join (cmds.map (helpRow 7)) ++
              "\n\nShow more details:\n  <command> --help" ++ "\n"]⟩ := by
    intro cmds v hp
    simp only [REPL.showHelp, REPL.wrappedPrint,
      showHelpTable_maxLen host port unicodeLower env callCommand descCommand
        packageCommand cmds hp,
      showHelpRows_eq_join, TrimRight_help_text]
  refine ⟨?_, ?_, ?_, showHelpTable_fst_fold r.cmds _, ?_⟩
  · cases hs : Split l space with
    | nil => exact absurd hs (Split_ne_nil l space)
    | cons name args =>
      have hn : name = "help" := by simpa [hs] using h
      simp only [REPL.eval, hs, hn, if_true, table r.cmds w hperm]
  · exact hperm.map (helpRow 7)
  · intro e he
    refine ⟨?_, rfl⟩
    rcases perm_NewREPL_name host port unicodeLower env callCommand descCommand
      packageCommand r.cmds hperm e he with h | h | h | h | h <;> rw [h] <;> decide
  · have hs : Split "help" space = ["help"] := by decide
    simp only [REPL.eval, hs, if_true, table _ w (List.Perm.refl _)]
    simp only [NewREPL, List.map, String.join, List.foldl, helpRow, String.append_assoc]
    rfl

set_option maxRecDepth 8192 in
theorem eval_help_witness :
    demoREPL.eval "help me" demoWorld =
      some (("", none),
        ⟨demoWorld.env, demoWorld.invoked,
          demoWorld.written ++
            ["\nAvailable commands:\n" ++ String.join (demoREPL.cmds.map (helpRow 7)) ++
              "\n\nShow more details:\n  <command> --help" ++ "\n"]⟩) ∧
    demoREPL.eval "help me" demoWorld =
      some (("", none),
        ⟨⟨none, []⟩, [],
          ["\nAvailable commands:\n  call       demo\n  desc       demo\n" ++
            "  package    demo\n" ++
            "  service    set the service as the current selected service\n" ++
            "  show       show package, service or RPC names\n" ++
            "\n\nShow more details:\n  <command> --help\n"]⟩) :=
  ⟨(eval_help "localhost" "50051" id demoEnv demoCommand demoCommand demoCommand demoREPL
      "help me" demoWorld (List.Perm.refl _) (by decide)).1,
    by decide⟩

/-- Claim C15, as the code has it: the describe command is registered under the one name
`desc`. The name `describe` is not in the registry, so every line that begins with
`describe` makes `REPL.eval` return the empty text and `ErrUnknownCommand`, with the world
left as it was; the command is reached under `desc` only. -/
theorem eval_describe_unknown (host port : String) (unicodeLower : Char → Char)
    (env : Env σ) (callCommand descCommand packageCommand : Commander σ) (rest : String)
    (w : World σ) :
    REPL.find "desc"
      (NewREPL host port unicodeLower env callCommand descCommand packageCommand).cmds =
        some descCommand ∧
    REPL.find "describe"
      (NewREPL host port unicodeLower env callCommand descCommand packageCommand).cmds =
        none ∧
    (NewREPL host port unicodeLower env callCommand descCommand packageCommand).eval
      ("describe" ++ rest) w = some (("", some ErrUnknownCommand), w) := by
  refine ⟨rfl, rfl, ?_⟩
  obtain ⟨p, ps, hp⟩ := splitChars_append_head space ("describe" : String).data rest.data
    (by decide)
  have hs : Split ("describe" ++ rest) space =
      String.mk (("describe" : String).data ++ p) :: ps.map String.mk := by
    rw [Split, String.data_append, hp, List.map_cons]
  have h0 := mk_append_ne ("describe" : String).data p "help" (by decide)
  have h1 := mk_append_ne ("describe" : String).data p "call" (by decide)
  have h2 := mk_append_ne ("describe" : String).data p "desc" (by decide)
  have h3 := mk_append_ne ("describe" : String).data p "package" (by decide)
  have h4 := mk_append_ne ("describe" : String).data p "service" (by decide)
  have h5 := mk_append_ne ("describe" : String).data p "show" (by decide)
  simp only [REPL.eval, hs, if_neg h0, NewREPL, REPL.find, if_neg h1, if_neg h2, if_neg h3,
    if_neg h4, if_neg h5]

/-- Claim C15 fails as stated: the line `describe X` yields `ErrUnknownCommand`, while the
line `desc X` runs the command registered under `desc`. -/
theorem eval_describe_not_desc :
    demoREPL.eval "describe X" demoWorld = some (("", some ErrUnknownCommand), demoWorld) ∧
    demoREPL.eval "desc X" demoWorld =
      some (("X", none),
        ⟨⟨none, []⟩, [Invocation.Validate "desc" ["X"], Invocation.Run "desc" ["X"]], []⟩) ∧
    demoREPL.eval "describe X" demoWorld ≠ demoREPL.eval "desc X" demoWorld := by
  decide

/-- Claim C16: the help flag counts in the second position only. When the first token is a
registered command name and the second token, if there is one, is neither `-h` nor `--help`,
`REPL.eval` does not return the `Help` text: it gives all the tokens after the name, a later
`-h` included, to `Validate`, and when `Validate` accepts them, to `Run`. So `service foo -h`
calls `UseService` with `foo`. -/
theorem eval_flag_second_only (host port : String) (unicodeLower : Char → Char)
    (env : Env σ) (callCommand descCommand packageCommand cmd : Commander σ) (l n : String)
    (args : List String) (w : World σ)
    (hfind : REPL.find n
      (NewREPL host port unicodeLower env callCommand descCommand packageCommand).cmds =
        some cmd)
    (hs : Split l space = n :: args)
    (hflag : args.head? ≠ some "-h" ∧ args.head? ≠ some "--help") :
    (NewREPL host port unicodeLower env callCommand descCommand packageCommand).eval l w =
      REPL.validateRun n cmd args w ∧
    (∀ s, cmd.Validate args w.env = some (none, s) →
      (NewREPL host port unicodeLower env callCommand descCommand packageCommand).eval l w =
        (cmd.Run args s).map (fun x =>
          (x.1, ⟨x.2, w.invoked ++ [Invocation.Validate n args, Invocation.Run n args],
            w.written⟩))) ∧
    (∀ s err, cmd.Validate args w.env = some (some err, s) →
      (NewREPL host port unicodeLower env callCommand descCommand packageCommand).eval l w =
        some (("", some err), ⟨s, w.invoked ++ [Invocation.Validate n args], w.written⟩)) ∧
    (NewREPL host port unicodeLower env callCommand descCommand packageCommand).eval
      "service foo -h" w =
      some (("", (env.UseService "foo" w.env.state).1),
        ⟨⟨(env.UseService "foo" w.env.state).2, w.env.calls ++ [Call.UseService "foo"]⟩,
          w.invoked ++
            [Invocation.Validate "service" ["foo", "-h"],
              Invocation.Run "service" ["foo", "-h"]],
          w.written⟩) := by
  have hn : n ≠ "help" := by
    rcases find_NewREPL_name host port unicodeLower env callCommand descCommand
      packageCommand cmd n hfind with e | e | e | e | e <;> rw [e] <;> decide
  have key := eval_of_tokens
    (NewREPL host port unicodeLower env callCommand descCommand packageCommand)
    l n args cmd w hs hn hfind hflag
  refine ⟨key, ?_, ?_, ?_⟩
  · intro s hval
    rw [key, validateRun_of_valid n cmd args w s hval]
  · intro s err hval
    rw [key]
    simp only [REPL.validateRun, hval]
  · exact eval_service host port unicodeLower env callCommand descCommand packageCommand
      "service foo -h" "foo" ["-h"] w rfl (by decide) (by decide)

theorem eval_flag_second_only_witness :
    demoREPL.eval "service Greeter -h" demoWorld =
      REPL.validateRun "service" (serviceCommand.commander demoEnv) ["Greeter", "-h"]
        demoWorld ∧
    demoREPL.eval "service Greeter -h" demoWorld =
      some (("", none),
        ⟨⟨some "Greeter", [Call.UseService "Greeter"]⟩,
          [Invocation.Validate "service" ["Greeter", "-h"],
            Invocation.Run "service" ["Greeter", "-h"]], []⟩) :=
  ⟨(eval_flag_second_only "localhost" "50051" id demoEnv demoCommand demoCommand demoCommand
      (serviceCommand.commander demoEnv) "service Greeter -h" "service" ["Greeter", "-h"]
      demoWorld rfl (by decide) (by decide)).1,
    by decide⟩

/-- Claim C17: `REPL.printSplash` returns in every case and writes at most one text. It
writes nothing for the empty path, for a path that does not resolve, for a path `os.Stat`
reports as missing, and for a file that cannot be read. For a path that resolves to a file
which is there and can be read, it writes the contents of the file, followed by a line feed,
once. A path that begins with `~/` is resolved against the home directory, any other path by
`filepath.Abs`. -/
theorem printSplash_spec (fs : FileSystem) (p : String) (w : World σ) :
    REPL.printSplash fs "" w = w ∧
    (REPL.splashPath fs p = "" → REPL.printSplash fs p w = w) ∧
    (IsNotExist (fs.Stat (REPL.splashPath fs p)) = true → REPL.printSplash fs p w = w) ∧
    (∀ e, fs.ReadFile (REPL.splashPath fs p) = Except.error e →
      REPL.printSplash fs p w = w) ∧
    (∀ b, p ≠ "" → REPL.splashPath fs p ≠ "" →
      IsNotExist (fs.Stat (REPL.splashPath fs p)) = false →
      fs.ReadFile (REPL.splashPath fs p) = Except.ok b →
      REPL.printSplash fs p w = ⟨w.env, w.invoked, w.written ++ [b ++ "\n"]⟩) ∧
    (HasPrefix p "~/" = false → REPL.splashPath fs p = fs.Abs p) ∧
    (∀ home, HasPrefix p "~/" = true → fs.Dir = some home →
      REPL.splashPath fs p = fs.Join home (TrimPrefix p "~/")) ∧
    (REPL.printSplash fs p w = w ∨
      ∃ b, fs.ReadFile (REPL.splashPath fs p) = Except.ok b ∧
        REPL.printSplash fs p w = ⟨w.env, w.invoked, w.written ++ [b ++ "\n"]⟩) := by
  refine ⟨rfl, ?_, ?_, ?_, ?_, ?_, ?_, ?_⟩
  · intro h
    simp [REPL.printSplash, h]
  · intro h
    simp [REPL.printSplash, h]
  · intro e h
    simp [REPL.printSplash, h]
  · intro b hp ha hst hr
    simp [REPL.printSplash, hp, ha, hst, hr]
  · intro h
    simp [REPL.splashPath, h]
  · intro home h hd
    simp [REPL.splashPath, h, hd]
  · unfold REPL.printSplash
    split
    · split
      · split
        · cases hr : fs.ReadFile (REPL.splashPath fs p) with
          | error e => exact Or.inl rfl
          | ok b => exact Or.inr ⟨b, rfl, rfl⟩
        · exact Or.inl rfl
      · exact Or.inl rfl
    · exact Or.inl rfl

theorem printSplash_spec_witness :
    REPL.printSplash demoFS "~/splash.txt" demoWorld = ⟨⟨none, []⟩, [], ["Welcome!\n"]⟩ ∧
    REPL.printSplash demoFS "splash.txt" demoWorld = ⟨⟨none, []⟩, [], ["Welcome!\n"]⟩ ∧
    REPL.printSplash demoFS "/home/op/splash.txt" demoWorld =
      ⟨⟨none, []⟩, [], ["Welcome!\n"]⟩ ∧
    REPL.printSplash demoFS "~/missing.txt" demoWorld = demoWorld ∧
    REPL.printSplash demoFS "/etc/secret" demoWorld = demoWorld :=
  ⟨(printSplash_spec demoFS "~/splash.txt" demoWorld).2.2.2.2.1 "Welcome!"
      (by decide) (by decide) (by decide) rfl,
    (printSplash_spec demoFS "splash.txt" demoWorld).2.2.2.2.1 "Welcome!"
      (by decide) (by decide) (by decide) rfl,
    (printSplash_spec demoFS "/home/op/splash.txt" demoWorld).2.2.2.2.1 "Welcome!"
      (by decide) (by decide) (by decide) rfl,
    (printSplash_spec demoFS "~/missing.txt" demoWorld).2.2.1 (by decide),
    (printSplash_spec demoFS "/etc/secret" demoWorld).2.2.2.1
      (Error.collaborator "cannot read") rfl⟩

/-- Claim C18: within `REPL.eval`, `Run` of `service` and of `show` is reached with a list
that has a first element, and with no other. On a line whose first token is `service` or
`show`, `REPL.eval` returns without a panic, and what it has invoked is nothing (the help
flag), `Validate` alone on the empty list, or `Validate` and `Run` on one and the same
non-empty list. On the empty list itself both `Run` methods would be out of range. -/
theorem eval_run_args_nonempty (host port : String) (unicodeLower : Char → Char)
    (env : Env σ) (callCommand descCommand packageCommand : Commander σ) (l n : String)
    (w : World σ) (hn : n = "service" ∨ n = "show")
    (h : (Split l space).head? = some n) :
    (∃ res w',
      (NewREPL host port unicodeLower env callCommand descCommand packageCommand).eval l w =
        some (res, w') ∧
      (w'.invoked = w.invoked ∨
        w'.invoked = w.invoked ++ [Invocation.Validate n []] ∨
        ∃ a rest, w'.invoked =
          w.invoked ++ [Invocation.Validate n (a :: rest), Invocation.Run n (a :: rest)])) ∧
    serviceCommand.Run env [] w.env = none ∧
    showCommand.Run unicodeLower env [] w.env = none ∧
    serviceCommand.Validate [] ≠ none ∧
    showCommand.Validate [] ≠ none := by
  refine ⟨?_, rfl, rfl, by decide, by decide⟩
  cases hs : Split l space with
  | nil => exact absurd hs (Split_ne_nil l space)
  | cons name args =>
    have hname : name = n := by simpa [hs] using h
    subst hname
    cases args with
    | nil =>
      have hf : ([] : List String).head? ≠ some "-h" ∧
          ([] : List String).head? ≠ some "--help" := by simp
      rcases hn with e | e <;> subst e
      · refine ⟨("", some (Error.Wrap ErrArgumentRequired "service name")),
          ⟨w.env, w.invoked ++ [Invocation.Validate "service" []], w.written⟩, ?_,
          Or.inr (Or.inl rfl)⟩
        rw [eval_of_tokens
          (NewREPL host port unicodeLower env callCommand descCommand packageCommand)
          l "service" [] (serviceCommand.commander env) w hs
          (by decide) rfl hf]
        rfl
      · refine ⟨("", some (Error.Wrap ErrArgumentRequired
            "target type (package, service, message)")),
          ⟨w.env, w.invoked ++ [Invocation.Validate "show" []], w.written⟩, ?_,
          Or.inr (Or.inl rfl)⟩
        rw [eval_of_tokens
          (NewREPL host port unicodeLower env callCommand descCommand packageCommand)
          l "show" [] (showCommand.commander unicodeLower env) w hs
          (by decide) rfl hf]
        rfl
    | cons a rest =>
      by_cases hflag : a = "-h" ∨ a = "--help"
      · have hh : (a :: rest).head? = some "-h" ∨ (a :: rest).head? = some "--help" := by
          rcases hflag with e | e <;> simp [e]
        rcases hn with e | e <;> subst e
        · refine ⟨(serviceCommand.Help, none), w, ?_, Or.inl rfl⟩
          simp only [REPL.eval, hs]
          rw [if_neg (by decide)]
          show (if (a :: rest).head? = some "-h" ∨ (a :: rest).head? = some "--help" then _
            else _) = _
          rw [if_pos hh]
          rfl
        · refine ⟨(showCommand.Help, none), w, ?_, Or.inl rfl⟩
          simp only [REPL.eval, hs]
          rw [if_neg (by decide)]
          show (if (a :: rest).head? = some "-h" ∨ (a :: rest).head? = some "--help" then _
            else _) = _
          rw [if_pos hh]
          rfl
      · have hf : (a :: rest).head? ≠ some "-h" ∧ (a :: rest).head? ≠ some "--help" := by
          simp only [not_or] at hflag
          simp [hflag.1, hflag.2]
        rcases hn with e | e <;> subst e
        · refine ⟨("", (env.UseService a w.env.state).1),
            ⟨⟨(env.UseService a w.env.state).2, w.env.calls ++ [Call.UseService a]⟩,
              w.invoked ++
                [Invocation.Validate "service" (a :: rest),
                  Invocation.Run "service" (a :: rest)],
              w.written⟩, ?_, Or.inr (Or.inr ⟨a, rest, rfl⟩)⟩
          exact eval_service host port unicodeLower env callCommand descCommand
            packageCommand l a rest w hs (fun e => hflag (Or.inl e))
            (fun e => hflag (Or.inr e))
        · obtain ⟨x, hx⟩ := showCommand.Run_cons_isSome unicodeLower env a rest w.env
          refine ⟨x.1,
            ⟨x.2,
              w.invoked ++
                [Invocation.Validate "show" (a :: rest), Invocation.Run "show" (a :: rest)],
              w.written⟩, ?_, Or.inr (Or.inr ⟨a, rest, rfl⟩)⟩
          rw [eval_of_tokens
          (NewREPL host port unicodeLower env callCommand descCommand packageCommand)
          l "show" (a :: rest)
            (showCommand.commander unicodeLower env) w hs (by decide) rfl hf,
            validateRun_of_valid "show" _ (a :: rest) w w.env rfl]
          show Option.map _ (showCommand.Run unicodeLower env (a :: rest) w.env) = _
          rw [hx]
          rfl

theorem eval_run_args_nonempty_witness :
    (∃ res w',
      demoREPL.eval "show" demoWorld = some (res, w') ∧
      (w'.invoked = demoWorld.invoked ∨
        w'.invoked = demoWorld.invoked ++ [Invocation.Validate "show" []] ∨
        ∃ a rest, w'.invoked =
          demoWorld.invoked ++
            [Invocation.Validate "show" (a :: rest), Invocation.Run "show" (a :: rest)])) ∧
    serviceCommand.Run demoEnv [] demoWorld.env = none ∧
    showCommand.Run id demoEnv [] demoWorld.env = none ∧
    serviceCommand.Validate [] ≠ none ∧
    showCommand.Validate [] ≠ none :=
  eval_run_args_nonempty "localhost" "50051" id demoEnv demoCommand demoCommand demoCommand
    "show" "show" demoWorld (Or.inr rfl) (by decide)

end Evans
